import Mathlib

/-!
# Verification of the read-aloud content extraction and classification engine

This file gives a shallow embedding of the `ArticleParser` module (the
page-classification and content-extraction engine of the read-aloud browser
extension) and proves properties of it.

The document is modelled as the read-only view the engine actually queries:
the navigation pathname, the primary column with its tweet articles, span
labels, tweet-text elements and `div[lang]` elements, the optional article
read-view container, and the author signals (User-Name span, document title,
author meta tag).  JavaScript string lengths (UTF-16 code units) are modelled
as `String.length` (code points); the two agree on the texts considered here.
JavaScript regular expressions used by the source are compiled by hand into
executable character-list matchers; greedy/lazy behaviour is reproduced where
it is observable (noted at each matcher).
-/

namespace ReadAloud

/-- JS `\d`: an ASCII decimal digit. -/
def isDigit10 (c : Char) : Bool := '0' ≤ c && c ≤ '9'

/-- JS `\s`: whitespace (modelled by Unicode whitespace, which agrees with JS
on the ASCII whitespace characters appearing in the engine's inputs). -/
def isWsChar (c : Char) : Bool := c.isWhitespace

/-- JS `\w`: ASCII letter, digit or underscore. -/
def isWordChar (c : Char) : Bool :=
  ('a' ≤ c && c ≤ 'z') || ('A' ≤ c && c ≤ 'Z') || isDigit10 c || c = '_'

/-- Drop a maximal run of decimal digits (regex `\d*` by maximal munch). -/
def dropDigits (cs : List Char) : List Char := cs.dropWhile isDigit10

/-- Does `small` occur at the start of `big`? (for `String.prototype.includes`). -/
def listStartsWith : List Char → List Char → Bool
  | [], _ => true
  | _ :: _, [] => false
  | n :: ns, h :: hs => n = h && listStartsWith ns hs

/-- Does `needle` occur anywhere inside `hay`? -/
def listHasInfix (needle : List Char) : List Char → Bool
  | [] => listStartsWith needle []
  | c :: rest => listStartsWith needle (c :: rest) || listHasInfix needle rest

/-- JS `String.prototype.includes(needle)`. -/
def strHasSub (hay needle : String) : Bool := listHasInfix needle.toList hay.toList

/-- JS `Array.prototype.join(sep)`. -/
def joinSep (sep : String) : List String → String
  | [] => ""
  | [a] => a
  | a :: b :: rest => a ++ sep ++ joinSep sep (b :: rest)

/-- JS `String.prototype.trim()` (a kernel-reducible replacement for
`String.trim`, which uses position recursion the kernel cannot unfold). -/
def jsTrim (s : String) : String :=
  String.mk (((s.toList.dropWhile isWsChar).reverse.dropWhile isWsChar).reverse)

/-- JS `String.prototype.toLowerCase()` (ASCII; kernel-reducible replacement
for `String.toLower`). -/
def asciiLower (s : String) : String := String.mk (s.toList.map Char.toLower)

/-- JS `String.prototype.split('\n')` (keeps empty pieces). -/
def splitNlList : List Char → List (List Char)
  | [] => [[]]
  | '\n' :: rest => [] :: splitNlList rest
  | c :: rest =>
    match splitNlList rest with
    | g :: gs => (c :: g) :: gs
    | [] => [[c]]

/-- JS `String.prototype.split('\n')` on strings. -/
def splitNl (s : String) : List String := (splitNlList s.toList).map String.mk

/-- JS `String.prototype.startsWith(p)`. -/
def strStartsWith (s p : String) : Bool := listStartsWith p.toList s.toList

/-- First step of `cleanText`: JS `replace(/\s+/g, ' ')`.  The boolean records
whether the previous character was part of a whitespace run already replaced. -/
def collapseWsAux : Bool → List Char → List Char
  | _, [] => []
  | prevWs, c :: rest =>
    if isWsChar c then
      if prevWs then collapseWsAux true rest
      else ' ' :: collapseWsAux true rest
    else c :: collapseWsAux false rest

/-- Index of the last `'\n'` in a character list, if any. -/
def findLastNl : List Char → Option Nat
  | [] => none
  | c :: rest =>
    match findLastNl rest with
    | some i => some (i + 1)
    | none => if c = '\n' then some 0 else none

/-- Second step of `cleanText`: JS `replace(/\n\s*\n/g, '\n')`.  The greedy
`\s*` must end right before a `'\n'`, so a match starting at a `'\n'` extends
to the last `'\n'` inside the following whitespace run; scanning resumes after
the match (global, non-overlapping). -/
def replaceNlNl : List Char → List Char
  | [] => []
  | c :: rest =>
    if c = '\n' then
      match findLastNl (rest.takeWhile isWsChar) with
      | some j => '\n' :: replaceNlNl (rest.drop (j + 1))
      | none => c :: replaceNlNl rest
    else c :: replaceNlNl rest
termination_by cs => cs.length
decreasing_by
  all_goals simp [List.length_drop]
  all_goals omega

/-- `cleanText(text)`: collapse whitespace runs to a single space, collapse
blank lines, trim; empty (falsy) input short-circuits to the empty string. -/
def cleanText (s : String) : String :=
  if s = "" then ""
  else jsTrim (String.mk (replaceNlNl (collapseWsAux false s.toList)))

/-- Regex `^(\d+\.?\d*[KMB]?)$` with the `i` flag: a bare engagement counter.
All sub-patterns after the leading `\d+` are followed only by characters that
cannot re-match them, so maximal munch is faithful. -/
def matchesCounter (cs : List Char) : Bool :=
  match cs with
  | [] => false
  | c :: rest =>
    if isDigit10 c then
      let r1 := dropDigits rest
      let r2 := match r1 with
        | '.' :: r => dropDigits r
        | _ => r1
      match r2 with
      | [] => true
      | [k] => k = 'K' || k = 'M' || k = 'B' || k = 'k' || k = 'm' || k = 'b'
      | _ => false
    else false

/-- `isButtonText(text)`: the minimal UI action-text filter.  Each source
regex is anchored (`^...$`), so it is an exact (case-insensitive where the
`i` flag is present) match on the trimmed text. -/
def isButtonText (text : String) : Bool :=
  let t := jsTrim text
  let low := asciiLower t
  (low = "like" || low = "repost" || low = "reply" || low = "share" ||
   low = "bookmark" || low = "copy link" || low = "more")
  || matchesCounter t.toList
  || low = "follow"
  || low = "following"
  || t = "Â·"

/-- The action-word tail of the first `uiPatterns` regex:
`(Repost|Like|View|Reply|Quote|Share|Bookmark|More)s?$` with the `i` flag. -/
def matchActionWord (cs : List Char) : Bool :=
  let low := asciiLower (String.mk cs)
  ["repost", "like", "view", "reply", "quote", "share", "bookmark", "more"].any
    (fun w => low = w || low = w ++ "s")

/-- Regex `^(\d+\.?\d*[KMB]?\s*)?(Repost|...|More)s?$/i`.  All quantified
sub-patterns are deterministic under maximal munch except `[KMB]?`, whose two
branches are both tried (`More` also starts with `M`). -/
def matchCountedAction (cs : List Char) : Bool :=
  match cs with
  | [] => matchActionWord []
  | c :: rest =>
    if isDigit10 c then
      let r1 := dropDigits rest
      let r2 := match r1 with
        | '.' :: r => dropDigits r
        | _ => r1
      let withKMB := match r2 with
        | k :: r =>
          if k = 'K' || k = 'M' || k = 'B' || k = 'k' || k = 'm' || k = 'b' then
            matchActionWord (r.dropWhile isWsChar)
          else false
        | [] => false
      withKMB || matchActionWord (r2.dropWhile isWsChar)
    else matchActionWord cs

/-- Regex `^Replying to @\w+$/i`. -/
def matchReplying (t : String) : Bool :=
  let low := asciiLower t
  strStartsWith low "replying to @" &&
    (let rest := (low.toList).drop 13
     !rest.isEmpty && rest.all isWordChar)

/-- Regex `^\d+:\d+\s*(AM|PM)$/i` (a clock-time stamp). -/
def matchTime (cs : List Char) : Bool :=
  match cs with
  | [] => false
  | c :: rest =>
    if isDigit10 c then
      match dropDigits rest with
      | ':' :: r2 =>
        match r2 with
        | d :: r3 =>
          if isDigit10 d then
            let r4 := (dropDigits r3).dropWhile isWsChar
            let lowr := asciiLower (String.mk r4)
            lowr = "am" || lowr = "pm"
          else false
        | [] => false
      | _ => false
    else false

/-- Regex `^(Jan|Feb|Mar|Apr|May|Jun|Jul|Aug|Sep|Oct|Nov|Dec)\s+\d+,?\s*\d*$/i`
(a date stamp). -/
def matchDate (cs : List Char) : Bool :=
  let low := (asciiLower (String.mk cs)).toList
  match low with
  | m1 :: m2 :: m3 :: rest =>
    if ["jan", "feb", "mar", "apr", "may", "jun",
        "jul", "aug", "sep", "oct", "nov", "dec"].contains (String.mk [m1, m2, m3]) then
      match rest with
      | w :: r1 =>
        if isWsChar w then
          match r1.dropWhile isWsChar with
          | d :: r3 =>
            if isDigit10 d then
              let r4 := dropDigits r3
              let r5 := match r4 with
                | ',' :: r => r
                | _ => r4
              dropDigits (r5.dropWhile isWsChar) = []
            else false
          | [] => false
        else false
      | [] => false
    else false
  | _ => false

/-- Regex `^Read \d+ (replies|reply)$/i`. -/
def matchReadReplies (cs : List Char) : Bool :=
  let low := (asciiLower (String.mk cs)).toList
  match low with
  | 'r' :: 'e' :: 'a' :: 'd' :: ' ' :: rest =>
    match rest with
    | d :: r1 =>
      if isDigit10 d then
        match dropDigits r1 with
        | ' ' :: r2 => String.mk r2 = "replies" || String.mk r2 = "reply"
        | _ => false
      else false
    | [] => false
  | _ => false

/-- The `uiPatterns` array of `isUIElement`, each tested against the trimmed
candidate text; `true` iff some pattern matches. -/
def uiPatternsMatch (t : String) : Bool :=
  let low := asciiLower t
  matchCountedAction t.toList
  || low = "show more"
  || low = "show this thread"
  || low = "translate post" || low = "translate tweet"
  || matchReplying t
  || low = "follow"
  || low = "following"
  || low = "promoted"
  || low = "ad"
  || matchTime t.toList
  || matchDate t.toList
  || matchReadReplies t.toList
  || low = "see new posts" || low = "see new tweets"
  || low = "who to follow"
  || low = "trends for you"
  || low = "subscribe"
  || low = "get verified"

/-- `isUIElement(element, text)`: the element's ancestry component is the
boolean `inNavLike` (true when `element.closest('nav, footer, button,
[role="button"], [role="navigation"]')` is non-null).  Very short text is
always treated as UI chrome; the pattern set is consulted only for text
shorter than 50 characters. -/
def isUIElement (inNavLike : Bool) (text : String) : Bool :=
  if inNavLike then true
  else if text.length < 20 then true
  else if text.length < 50 then uiPatternsMatch (jsTrim text)
  else false

/-- The tail `\s+(?:on\s+X|\/\s+X):` of the page-title author regex, tested
at the start of `cs`.  Each `\s+` is followed by a non-whitespace literal, so
maximal munch is faithful. -/
def titleTailMatch (cs : List Char) : Bool :=
  let afterSep : List Char → Bool := fun r2 =>
    match r2 with
    | c2 :: r3 =>
      if isWsChar c2 then
        match r3.dropWhile isWsChar with
        | 'X' :: ':' :: _ => true
        | _ => false
      else false
    | [] => false
  match cs with
  | c :: rest =>
    if isWsChar c then
      match rest.dropWhile isWsChar with
      | 'o' :: 'n' :: r2 => afterSep r2
      | '/' :: r2 => afterSep r2
      | _ => false
    else false
  | [] => false

/-- The lazy group scan for `^(.+?)\s+(?:on\s+X|\/\s+X):`: the shortest
non-empty prefix (of characters matchable by `.`, i.e. no line terminators)
whose remainder starts with the tail pattern.  `accRev` is the reversed
prefix consumed so far. -/
def titleScan : List Char → List Char → Option (List Char)
  | _, [] => none
  | accRev, c :: rest =>
    if c = '\n' || c = '\r' then none
    else if titleTailMatch rest then some (c :: accRev).reverse
    else titleScan (c :: accRev) rest

/-- `pageTitle.match(/^(.+?)\s+(?:on\s+X|\/\s+X):/)`, returning group 1. -/
def titleAuthorMatch (s : String) : Option String :=
  (titleScan [] s.toList).map (fun cs => String.mk cs)

/-! ## Document model

The engine reads the live document only through a fixed set of queries; the
model records the result of each query.  Fields are unconstrained relative to
one another (the host page is external and adversarial), which only enlarges
the state space the universally quantified theorems cover. -/

/-- A node visited by the `createTreeWalker` traversal in
`extractTextFromElement`: a text node, an image (with its `alt` attribute),
a line break, or any other element with its descendant nodes. -/
inductive DomNode where
  | textNode (s : String)
  | img (alt : String)
  | br
  | other (children : List DomNode)

/-- A text-bearing element as queried by the extractors: its `innerText`, the
walker-visible descendant nodes, whether `closest('[data-testid="quoteTweet"]')`
matches, and whether `closest('nav, footer, button, [role="button"],
[role="navigation"]')` matches. -/
structure ContentEl where
  innerText : String := ""
  nodes : List DomNode := []
  insideQuote : Bool := false
  inNavLike : Bool := false

/-- An `article[data-testid="tweet"]` element as read by the classifier:
the `href` of the first `a[href^="/"]` link inside its `[data-testid="User-Name"]`
element (when both exist), the `innerText` of its first
`[data-testid="tweetText"]` descendant (when present), and whether it is
nested inside a quote tweet. -/
structure TweetEl where
  userNameHref : Option String := none
  tweetText : Option String := none
  insideQuote : Bool := false

/-- A content element inside the `twitterArticleReadView` container (matched
by `[class*="longform-"], .public-DraftStyleDefault-ul,
.public-DraftStyleDefault-ol`). -/
structure ReadViewEl where
  innerText : String := ""
  tag : String := "DIV"
  inCardWrapper : Bool := false
  inTweetPhoto : Bool := false
  inStatusLink : Bool := false

/-- The `[data-testid="twitterArticleReadView"]` container. -/
structure ReadView where
  contentElements : List ReadViewEl := []
  innerText : String := ""

/-- The primary content region (`[data-testid="primaryColumn"]`, or `main`
for the fallback root): the queried span texts, tweet articles, first
`article` descendant, `[data-testid="tweetText"]` elements and `div[lang]`
elements, each in DOM order. -/
structure Region where
  spans : List String := []
  tweets : List TweetEl := []
  firstArticle : Option TweetEl := none
  tweetTexts : List ContentEl := []
  langDivs : List ContentEl := []

/-- The container used by `extractArticleContent` (`[data-testid="article"]`,
`[data-testid="articleViewer"]` or `article`): its first heading's text and
its `p, [data-testid="tweetText"], div[dir="auto"][lang]` descendants. -/
structure ArticleC where
  headingText : Option String := none
  paragraphEls : List ContentEl := []

/-- The document snapshot: everything the engine queries on a call. -/
structure Doc where
  pathname : String := "/"
  primaryColumn : Option Region := none
  mainEl : Option Region := none
  hasArticleContainer : Bool := false
  showMoreLink : Bool := false
  firstTweetEl : Option TweetEl := none
  tweetDetailEl : Option TweetEl := none
  articleEl : Option ArticleC := none
  readView : Option ReadView := none
  userNameSpan : Option String := none
  docTitle : String := ""
  metaAuthorContent : Option String := none

/-- The extractor's output record. -/
structure Content where
  title : String := ""
  author : String := ""
  body : String := ""
  paragraphs : List String := []

def emptyContent : Content := {}

/-! ## The engine -/

/-- `MIN_SINGLE_TWEET_LENGTH`: a single tweet needs to be longer than a
standard tweet. -/
def MIN_SINGLE_TWEET_LENGTH : Nat := 280

/-- `MIN_THREAD_CONTENT_LENGTH`: a thread needs decent content. -/
def MIN_THREAD_CONTENT_LENGTH : Nat := 400

/-- `MIN_THREAD_TWEETS`: at least 2 tweets for a thread. -/
def MIN_THREAD_TWEETS : Nat := 2

/-- Regex `\/status\/\d+` (unanchored test on the pathname). -/
def statusAt : List Char → Bool
  | '/' :: 's' :: 't' :: 'a' :: 't' :: 'u' :: 's' :: '/' :: c :: _ => isDigit10 c
  | _ => false

/-- Does some suffix of the character list satisfy `p`? -/
def anySuffix (p : List Char → Bool) : List Char → Bool
  | [] => p []
  | c :: rest => p (c :: rest) || anySuffix p rest

/-- `/\/status\/\d+/.test(pathname)`. -/
def isStatusPath (pathname : String) : Bool := anySuffix statusAt pathname.toList

/-- `getAuthorHandle()`: `pathname.match(/^\/([^/]+)\//)`, lowercased first
segment.  The greedy `[^/]+` must be followed by `'/'`; shorter prefixes end
right before another non-`'/'` character, so maximal munch is faithful. -/
def getAuthorHandle (pathname : String) : Option String :=
  match pathname.toList with
  | '/' :: rest =>
    let seg := rest.takeWhile (fun c => c ≠ '/')
    if seg.isEmpty then none
    else if (rest.drop seg.length).head? = some '/' then
      some (asciiLower (String.mk seg))
    else none
  | _ => none

/-- `extractAuthorFromElement(element)`:
`href.replace(/^\//, '').split('/')[0].toLowerCase()` on the User-Name link's
`href`, or `null` when the link or a truthy `href` is missing. -/
def extractAuthorFromElement (tweet : TweetEl) : Option String :=
  match tweet.userNameHref with
  | none => none
  | some href =>
    if href = "" then none
    else
      let stripped := match href.toList with
        | '/' :: rest => rest
        | l => l
      some (asciiLower (String.mk (stripped.takeWhile (fun c => c ≠ '/'))))

/-- `getMainTweetElement()`: the first `[data-testid="tweet"]` element, else
the first `[data-testid="tweetDetail"]`, else the primary column's first
`article`. -/
def getMainTweetElement (d : Doc) : Option TweetEl :=
  match d.firstTweetEl with
  | some t => some t
  | none =>
    match d.tweetDetailEl with
    | some t => some t
    | none =>
      match d.primaryColumn with
      | some pc => pc.firstArticle
      | none => none

/-- The thread-detection loop of `isArticlePage`: over the primary column's
tweet articles, skipping quote tweets, count the tweets whose extracted
author equals the path-derived handle and sum their tweet-text lengths. -/
def threadStats (tweets : List TweetEl) (authorHandle : String) : Nat × Nat :=
  tweets.foldl
    (fun acc tweet =>
      if tweet.insideQuote then acc
      else if extractAuthorFromElement tweet = some authorHandle then
        (acc.1 + 1, acc.2 + (tweet.tweetText.getD "").length)
      else acc)
    (0, 0)

/-- `isArticlePage()`: explicit article URLs always qualify; otherwise the
page must be a status page with a rendered primary column, and qualifies on
an article container, an "Article"/"Notes" label span, a "Show more" link, a
main tweet longer than `MIN_SINGLE_TWEET_LENGTH`, or a same-author thread of
at least `MIN_THREAD_TWEETS` tweets totalling at least
`MIN_THREAD_CONTENT_LENGTH` characters. -/
def isArticlePage (d : Doc) : Bool :=
  if strHasSub d.pathname "/article/" || strHasSub d.pathname "/i/articles/" then true
  else if !isStatusPath d.pathname then false
  else
    match d.primaryColumn with
    | none => false
    | some pc =>
      if d.hasArticleContainer then true
      else if pc.spans.any (fun s => jsTrim s = "Article" || jsTrim s = "Notes") then true
      else if d.showMoreLink then true
      else
        match getMainTweetElement d with
        | none => false
        | some mainTweet =>
          let mainTextLength := (mainTweet.tweetText.getD "").length
          if mainTextLength > MIN_SINGLE_TWEET_LENGTH then true
          else
            match getAuthorHandle d.pathname with
            | some authorHandle =>
              let stats := threadStats pc.tweets authorHandle
              if stats.1 ≥ MIN_THREAD_TWEETS ∧ stats.2 ≥ MIN_THREAD_CONTENT_LENGTH
              then true else false
            | none => false

/-- `extractTextFromElement`'s tree walk: text nodes contribute their text,
images with a truthy `alt` contribute the alt text, `BR` elements contribute
a newline, other elements contribute their descendants. -/
def walkTextList : List DomNode → String
  | [] => ""
  | DomNode.textNode s :: rest => s ++ walkTextList rest
  | DomNode.img alt :: rest => (if alt ≠ "" then alt else "") ++ walkTextList rest
  | DomNode.br :: rest => "\n" ++ walkTextList rest
  | DomNode.other children :: rest => walkTextList children ++ walkTextList rest

/-- `extractTextFromElement(element)`: walk, then clean. -/
def extractTextFromElement (nodes : List DomNode) : String :=
  cleanText (walkTextList nodes)

/-- `extractAuthor()`: the User-Name display-name span (when truthy, trimmed,
non-empty and not an `@`-handle), else the page-title match, else the author
meta tag, else the empty string. -/
def extractAuthor (d : Doc) : String :=
  let fromUserName : Option String :=
    match d.userNameSpan with
    | some innerText =>
      if innerText ≠ "" then
        let name := jsTrim innerText
        if name ≠ "" ∧ strStartsWith name "@" = false then some name else none
      else none
    | none => none
  match fromUserName with
  | some name => name
  | none =>
    match titleAuthorMatch d.docTitle with
    | some m => jsTrim m
    | none =>
      match d.metaAuthorContent with
      | some content => if content ≠ "" then content else ""
      | none => ""

/-! ## Extraction strategies

Each `for`-loop of the source is an explicit accumulator recursion; `seen`
models the per-call `Set` used for de-duplication (elements are only ever
added together with a push, so a list with membership test is faithful). -/

/-- Loop of `extractArticleContent`: clean, then keep text that is truthy,
longer than 10, unseen and not a UI element. -/
def articleLoop : List ContentEl → List String → List String → List String
  | [], ps, _ => ps
  | el :: rest, ps, seen =>
    let text := cleanText el.innerText
    if text ≠ "" ∧ text.length > 10 ∧ text ∉ seen ∧ isUIElement el.inNavLike text = false
    then articleLoop rest (ps ++ [text]) (seen ++ [text])
    else articleLoop rest ps seen

/-- Loop of the structured (`twitterArticleReadView`) strategy of
`extractStatusContent`: skip media cards, photos, embedded status links and
IMG/VIDEO elements; keep trimmed non-empty text that is not button text. -/
def statusLoop : List ReadViewEl → List String → List String
  | [], ps => ps
  | el :: rest, ps =>
    if el.inCardWrapper then statusLoop rest ps
    else if el.inTweetPhoto then statusLoop rest ps
    else if el.inStatusLink then statusLoop rest ps
    else if el.tag = "IMG" ∨ el.tag = "VIDEO" then statusLoop rest ps
    else
      let text := jsTrim el.innerText
      if text ≠ "" ∧ isButtonText text = false
      then statusLoop rest (ps ++ [text])
      else statusLoop rest ps

/-- Line-split fallback of the structured strategy: keep trimmed non-empty,
non-button lines of the container's full text. -/
def lineLoop : List String → List String → List String
  | [], ps => ps
  | line :: rest, ps =>
    let text := jsTrim line
    if text ≠ "" ∧ isButtonText text = false
    then lineLoop rest (ps ++ [text])
    else lineLoop rest ps

/-- Loop of `extractThreadContent`: over the primary column's tweet-text
elements, skip quote tweets, keep trimmed truthy unseen text. -/
def threadLoop : List ContentEl → List String → List String → List String × List String
  | [], ps, seen => (ps, seen)
  | el :: rest, ps, seen =>
    if el.insideQuote then threadLoop rest ps seen
    else
      let text := jsTrim el.innerText
      if text ≠ "" ∧ text ∉ seen
      then threadLoop rest (ps ++ [text]) (seen ++ [text])
      else threadLoop rest ps seen

/-- The two loops of `extractFallbackContent` (`minLen` is 20 for the
tweet-text pass and 30 for the `div[lang]` pass): skip quote tweets, keep
walker-extracted text that is truthy, longer than `minLen`, unseen and not a
UI element. -/
def fallbackLoop (minLen : Nat) :
    List ContentEl → List String → List String → List String × List String
  | [], ps, seen => (ps, seen)
  | el :: rest, ps, seen =>
    if el.insideQuote then fallbackLoop minLen rest ps seen
    else
      let text := extractTextFromElement el.nodes
      if text ≠ "" ∧ text.length > minLen ∧ text ∉ seen ∧
          isUIElement el.inNavLike text = false
      then fallbackLoop minLen rest (ps ++ [text]) (seen ++ [text])
      else fallbackLoop minLen rest ps seen

/-- Shared tail of the thread and status strategies: store the paragraph
list and the blank-line-joined body, then set the title from the first
paragraph when it is truthy and shorter than 150 characters (the source
repeats these statements verbatim in both functions). -/
def finishParas (c : Content) (ps : List String) : Content :=
  let c1 := { c with paragraphs := ps, body := joinSep "\n\n" ps }
  match ps.head? with
  | some p0 => if p0 ≠ "" ∧ p0.length < 150 then { c1 with title := p0 } else c1
  | none => c1

/-- `extractThreadContent(content)`: thread fallback for non-article pages.
Returns `content` unchanged when the primary column is missing; otherwise
replaces its paragraphs/body and sets the title from a short first paragraph. -/
def extractThreadContent (d : Doc) (content : Content) : Content :=
  match d.primaryColumn with
  | none => content
  | some pc => finishParas content (threadLoop pc.tweetTexts [] []).1

/-- `extractStatusContent(content)`: sets the author, then tries the
structured read-view strategy (with its line-split fallback), else falls
through to `extractThreadContent`. -/
def extractStatusContent (d : Doc) (content : Content) : Content :=
  let c := { content with author := extractAuthor d }
  match d.readView with
  | none => extractThreadContent d c
  | some rv =>
    let ps1 := statusLoop rv.contentElements []
    let ps := if ps1.isEmpty then lineLoop (splitNl rv.innerText) [] else ps1
    if ps.isEmpty then extractThreadContent d c
    else finishParas c ps

/-- `extractArticleContent(content)`: article (Notes) pages; falls back to
`extractStatusContent` when no article container exists. -/
def extractArticleContent (d : Doc) (content : Content) : Content :=
  match d.articleEl with
  | none => extractStatusContent d content
  | some ac =>
    let c1 := match ac.headingText with
      | some t => { content with title := jsTrim t }
      | none => content
    let c2 := { c1 with author := extractAuthor d }
    let ps := articleLoop ac.paragraphEls [] []
    { c2 with paragraphs := ps, body := joinSep "\n\n" ps }

/-- `extractContent()`: article extraction on `/article/` paths, status
extraction otherwise. -/
def extractContent (d : Doc) : Content :=
  if strHasSub d.pathname "/article/" then extractArticleContent d emptyContent
  else extractStatusContent d emptyContent

/-- The fallback root: `[data-testid="primaryColumn"]` or `main`. -/
def fallbackRoot (d : Doc) : Option Region :=
  match d.primaryColumn with
  | some pc => some pc
  | none => d.mainEl

/-- `extractFallbackContent()`: aggressive extraction over tweet-text
elements (length > 20), then over `div[lang]` elements (length > 30) if the
first pass found nothing. -/
def extractFallbackContent (d : Doc) : Content :=
  let base : Content := { emptyContent with author := extractAuthor d }
  match fallbackRoot d with
  | none => base
  | some pc =>
    let r1 := fallbackLoop 20 pc.tweetTexts [] []
    let r2 := if r1.1.isEmpty then fallbackLoop 30 pc.langDivs r1.1 r1.2 else r1
    { base with paragraphs := r2.1, body := joinSep "\n\n" r2.1 }

/-- `getReadableText()`: the flattened text for speech, or `none` when both
the layered extraction and the aggressive fallback produce no paragraphs.
An "Article by <author>" line is prepended exactly when the author string is
truthy. -/
def getReadableText (d : Doc) : Option String :=
  let content := extractContent d
  if content.paragraphs.isEmpty then
    let fallbackContent := extractFallbackContent d
    if fallbackContent.paragraphs.isEmpty then none
    else
      some (joinSep "\n\n"
        ((if fallbackContent.author ≠ "" then ["Article by " ++ fallbackContent.author] else [])
          ++ fallbackContent.paragraphs))
  else
    some (joinSep "\n\n"
      ((if content.author ≠ "" then ["Article by " ++ content.author] else [])
        ++ content.paragraphs))

/-- `getStructuredContent()`. -/
def getStructuredContent (d : Doc) : Content := extractContent d

/-- Two successive classification calls on one document snapshot (the module
holds no mutable state between calls: its only module-level bindings are the
constant thresholds and the constant debug flag). -/
def classifyTwice (d : Doc) : Bool × Bool := (isArticlePage d, isArticlePage d)

/-- Two successive extraction calls on one document snapshot. -/
def extractTwice (d : Doc) : Option String × Option String :=
  (getReadableText d, getReadableText d)

/-! ## Concrete documents used in the claim theorems -/

/-- The 39-character main item of the end-to-end scenario. -/
def c1textA1 : String := "Hello world, this is a short test post."

/-- The 500-character item from author B. -/
def c1textB : String := String.mk (List.replicate 500 'b')

/-- The 380-character second item from author A. -/
def c1textA2 : String := String.mk (List.replicate 380 'c')

def c1tweetA1 : TweetEl := { userNameHref := some "/alice", tweetText := some c1textA1 }

def c1tweetB : TweetEl := { userNameHref := some "/bob", tweetText := some c1textB }

def c1tweetA2 : TweetEl := { userNameHref := some "/alice", tweetText := some c1textA2 }

/-- The primary region of the end-to-end scenario: three non-quoted items,
A(39 chars), B(500 chars), A(380 chars). -/
def c1pc : Region :=
  { tweets := [c1tweetA1, c1tweetB, c1tweetA2],
    firstArticle := some c1tweetA1,
    tweetTexts := [{ innerText := c1textA1 }, { innerText := c1textB },
                   { innerText := c1textA2 }] }

/-- The end-to-end scenario document, on a single-item (`/status/`) path. -/
def c1doc : Doc :=
  { pathname := "/alice/status/12345", primaryColumn := some c1pc,
    firstTweetEl := some c1tweetA1 }

/-- A paragraph text repeated in two structured read-view elements. -/
def c2dupText : String := "This is a duplicated paragraph of content."

/-- A status page whose read-view container has two elements with identical
text. -/
def c2dupDoc : Doc :=
  { pathname := "/pat/status/1",
    readView := some { contentElements := [{ innerText := c2dupText },
                                           { innerText := c2dupText }] } }

/-- A status page whose only tweet text is the chrome string "Like". -/
def c2chromeDoc : Doc :=
  { pathname := "/pat/status/2",
    primaryColumn := some { tweetTexts := [{ innerText := "Like" }] } }

/-- A plain status page with one readable tweet (no read-view container). -/
def c2wDoc : Doc :=
  { pathname := "/pat/status/3",
    primaryColumn := some { tweetTexts := [{ innerText := "plain readable sentence" }] } }

/-- A 39-character first thread item. -/
def c3text1 : String := String.mk (List.replicate 39 'a')

/-- A 361-character second thread item (39 + 361 = 400 exactly). -/
def c3text2 : String := String.mk (List.replicate 361 'd')

def c3tweet1 : TweetEl := { userNameHref := some "/carol", tweetText := some c3text1 }

def c3tweet2 : TweetEl := { userNameHref := some "/carol", tweetText := some c3text2 }

def c3pc : Region := { tweets := [c3tweet1, c3tweet2] }

/-- A status page with exactly two same-author items totalling exactly 400
characters. -/
def c3doc : Doc :=
  { pathname := "/carol/status/99", primaryColumn := some c3pc,
    firstTweetEl := some c3tweet1 }

/-- A 281-character main item. -/
def c4text281 : String := String.mk (List.replicate 281 'x')

/-- A 280-character main item. -/
def c4text280 : String := String.mk (List.replicate 280 'x')

def c4tweet281 : TweetEl := { tweetText := some c4text281 }

def c4tweet280 : TweetEl := { tweetText := some c4text280 }

/-- A primary region with no tweet articles (no qualifying thread). -/
def c4pc : Region := {}

def c4doc281 : Doc :=
  { pathname := "/dave/status/7", primaryColumn := some c4pc,
    firstTweetEl := some c4tweet281 }

def c4doc280 : Doc :=
  { pathname := "/dave/status/7", primaryColumn := some c4pc,
    firstTweetEl := some c4tweet280 }

/-- An explicit article path with an entirely empty document. -/
def c5artDoc : Doc := { pathname := "/i/articles/abc123" }

/-- A non-article, non-status path. -/
def c5otherDoc : Doc := { pathname := "/home" }

/-- A status page whose only tweet text is the 4-character chrome string
"Like". -/
def c6doc : Doc :=
  { pathname := "/zed/status/5",
    primaryColumn := some { tweetTexts := [{ innerText := "Like" }] } }

def c6wpc : Region := { tweetTexts := [{ innerText := "a genuinely long thread text" }] }

def c6wDoc : Doc := { pathname := "/zed/status/6", primaryColumn := some c6wpc }

/-- Fifty decimal digits: a 50-character bare engagement counter. -/
def c7digits : String := String.mk (List.replicate 50 '1')

/-- A status page whose read-view content is exactly the 50-digit counter. -/
def c7doc : Doc :=
  { pathname := "/que/status/9",
    readView := some { contentElements := [{ innerText := c7digits }],
                       innerText := c7digits } }

/-- A 45-character candidate containing the substring "Like" without being
an exact or near-exact pattern match. -/
def c7text45 : String := "I Like to read every article aloud carefully."

/-- A 50-character candidate for the length-gate witness. -/
def c7fifty : String := String.mk (List.replicate 50 'x')

/-- The entirely empty document (default fields only). -/
def c8doc : Doc := {}

/-- A single readable tweet text. -/
def c10text : String := "Some readable content to speak aloud"

/-- A status page with exactly one readable tweet text. -/
def c10doc : Doc :=
  { pathname := "/mia/status/3",
    primaryColumn := some { tweetTexts := [{ innerText := c10text }] } }

/-! ## Invariant lemmas about the extraction loops -/

theorem statusLoop_mem (els : List ReadViewEl) (ps : List String) (p : String)
    (hp : p ∈ statusLoop els ps) :
    p ∈ ps ∨ (p ≠ "" ∧ isButtonText p = false ∧ ∃ el ∈ els, p = jsTrim el.innerText) := by
  induction els generalizing ps with
  | nil => exact Or.inl hp
  | cons el rest ih =>
    simp only [statusLoop] at hp
    split at hp
    · rcases ih _ hp with h | ⟨h1, h2, el', hel', he⟩
      · exact Or.inl h
      · exact Or.inr ⟨h1, h2, el', List.mem_cons_of_mem _ hel', he⟩
    · split at hp
      · rcases ih _ hp with h | ⟨h1, h2, el', hel', he⟩
        · exact Or.inl h
        · exact Or.inr ⟨h1, h2, el', List.mem_cons_of_mem _ hel', he⟩
      · split at hp
        · rcases ih _ hp with h | ⟨h1, h2, el', hel', he⟩
          · exact Or.inl h
          · exact Or.inr ⟨h1, h2, el', List.mem_cons_of_mem _ hel', he⟩
        · split at hp
          · rcases ih _ hp with h | ⟨h1, h2, el', hel', he⟩
            · exact Or.inl h
            · exact Or.inr ⟨h1, h2, el', List.mem_cons_of_mem _ hel', he⟩
          · split at hp
            · rename_i hguard
              rcases ih _ hp with h | ⟨h1, h2, el', hel', he⟩
              · rcases List.mem_append.mp h with h' | h'
                · exact Or.inl h'
                · have : p = jsTrim el.innerText := by simpa using h'
                  exact Or.inr ⟨this ▸ hguard.1, this ▸ hguard.2, el, List.mem_cons_self .., this⟩
              · exact Or.inr ⟨h1, h2, el', List.mem_cons_of_mem _ hel', he⟩
            · rcases ih _ hp with h | ⟨h1, h2, el', hel', he⟩
              · exact Or.inl h
              · exact Or.inr ⟨h1, h2, el', List.mem_cons_of_mem _ hel', he⟩

theorem lineLoop_mem (lines : List String) (ps : List String) (p : String)
    (hp : p ∈ lineLoop lines ps) :
    p ∈ ps ∨ (p ≠ "" ∧ isButtonText p = false ∧ ∃ l ∈ lines, p = jsTrim l) := by
  induction lines generalizing ps with
  | nil => exact Or.inl hp
  | cons l rest ih =>
    simp only [lineLoop] at hp
    split at hp
    · rename_i hguard
      rcases ih _ hp with h | ⟨h1, h2, l', hl', he⟩
      · rcases List.mem_append.mp h with h' | h'
        · exact Or.inl h'
        · have : p = jsTrim l := by simpa using h'
          exact Or.inr ⟨this ▸ hguard.1, this ▸ hguard.2, l, List.mem_cons_self .., this⟩
      · exact Or.inr ⟨h1, h2, l', List.mem_cons_of_mem _ hl', he⟩
    · rcases ih _ hp with h | ⟨h1, h2, l', hl', he⟩
      · exact Or.inl h
      · exact Or.inr ⟨h1, h2, l', List.mem_cons_of_mem _ hl', he⟩

theorem threadLoop_mem (els : List ContentEl) (ps seen : List String) (p : String)
    (hp : p ∈ (threadLoop els ps seen).1) :
    p ∈ ps ∨ (p ≠ "" ∧ ∃ el ∈ els, el.insideQuote = false ∧ p = jsTrim el.innerText) := by
  induction els generalizing ps seen with
  | nil => exact Or.inl hp
  | cons el rest ih =>
    simp only [threadLoop] at hp
    split at hp
    · rcases ih _ _ hp with h | ⟨h1, el', hel', hq, he⟩
      · exact Or.inl h
      · exact Or.inr ⟨h1, el', List.mem_cons_of_mem _ hel', hq, he⟩
    · rename_i hq
      split at hp
      · rename_i hguard
        rcases ih _ _ hp with h | ⟨h1, el', hel', hq', he⟩
        · rcases List.mem_append.mp h with h' | h'
          · exact Or.inl h'
          · have he : p = jsTrim el.innerText := by simpa using h'
            exact Or.inr ⟨he ▸ hguard.1, el, List.mem_cons_self ..,
              Bool.of_not_eq_true hq, he⟩
        · exact Or.inr ⟨h1, el', List.mem_cons_of_mem _ hel', hq', he⟩
      · rcases ih _ _ hp with h | ⟨h1, el', hel', hq', he⟩
        · exact Or.inl h
        · exact Or.inr ⟨h1, el', List.mem_cons_of_mem _ hel', hq', he⟩

theorem threadLoop_nodup (els : List ContentEl) (ps seen : List String)
    (hsub : ∀ p ∈ ps, p ∈ seen) (hnd : ps.Nodup) :
    (threadLoop els ps seen).1.Nodup := by
  induction els generalizing ps seen with
  | nil => exact hnd
  | cons el rest ih =>
    simp only [threadLoop]
    split
    · exact ih ps seen hsub hnd
    · split
      · rename_i hguard
        refine ih _ _ ?_ ?_
        · intro p hp
          rcases List.mem_append.mp hp with h | h
          · exact List.mem_append.mpr (Or.inl (hsub p h))
          · exact List.mem_append.mpr (Or.inr h)
        · refine List.Nodup.append hnd (List.nodup_singleton _) ?_
          intro a ha hb
          have : a = jsTrim el.innerText := by simpa using hb
          exact hguard.2 (this ▸ hsub a ha)
      · exact ih ps seen hsub hnd

theorem articleLoop_mem (els : List ContentEl) (ps seen : List String) (p : String)
    (hp : p ∈ articleLoop els ps seen) :
    p ∈ ps ∨ (p ≠ "" ∧ 10 < p.length ∧
      ∃ el ∈ els, isUIElement el.inNavLike p = false ∧ p = cleanText el.innerText) := by
  induction els generalizing ps seen with
  | nil => exact Or.inl hp
  | cons el rest ih =>
    simp only [articleLoop] at hp
    split at hp
    · rename_i hguard
      rcases ih _ _ hp with h | ⟨h1, h2, el', hel', hu, he⟩
      · rcases List.mem_append.mp h with h' | h'
        · exact Or.inl h'
        · have he : p = cleanText el.innerText := by simpa using h'
          exact Or.inr ⟨he ▸ hguard.1, he ▸ hguard.2.1, el, List.mem_cons_self ..,
            he ▸ hguard.2.2.2, he⟩
      · exact Or.inr ⟨h1, h2, el', List.mem_cons_of_mem _ hel', hu, he⟩
    · rcases ih _ _ hp with h | ⟨h1, h2, el', hel', hu, he⟩
      · exact Or.inl h
      · exact Or.inr ⟨h1, h2, el', List.mem_cons_of_mem _ hel', hu, he⟩

theorem articleLoop_nodup (els : List ContentEl) (ps seen : List String)
    (hsub : ∀ p ∈ ps, p ∈ seen) (hnd : ps.Nodup) :
    (articleLoop els ps seen).Nodup := by
  induction els generalizing ps seen with
  | nil => exact hnd
  | cons el rest ih =>
    simp only [articleLoop]
    split
    · rename_i hguard
      refine ih _ _ ?_ ?_
      · intro p hp
        rcases List.mem_append.mp hp with h | h
        · exact List.mem_append.mpr (Or.inl (hsub p h))
        · exact List.mem_append.mpr (Or.inr h)
      · refine List.Nodup.append hnd (List.nodup_singleton _) ?_
        intro a ha hb
        have : a = cleanText el.innerText := by simpa using hb
        exact hguard.2.2.1 (this ▸ hsub a ha)
    · exact ih ps seen hsub hnd

theorem fallbackLoop_mem (minLen : Nat) (els : List ContentEl) (ps seen : List String)
    (p : String) (hp : p ∈ (fallbackLoop minLen els ps seen).1) :
    p ∈ ps ∨ (p ≠ "" ∧ minLen < p.length ∧
      ∃ el ∈ els, el.insideQuote = false ∧ isUIElement el.inNavLike p = false ∧
        p = extractTextFromElement el.nodes) := by
  induction els generalizing ps seen with
  | nil => exact Or.inl hp
  | cons el rest ih =>
    simp only [fallbackLoop] at hp
    split at hp
    · rcases ih _ _ hp with h | ⟨h1, h2, el', hel', hq, hu, he⟩
      · exact Or.inl h
      · exact Or.inr ⟨h1, h2, el', List.mem_cons_of_mem _ hel', hq, hu, he⟩
    · rename_i hq
      split at hp
      · rename_i hguard
        rcases ih _ _ hp with h | ⟨h1, h2, el', hel', hq', hu, he⟩
        · rcases List.mem_append.mp h with h' | h'
          · exact Or.inl h'
          · have he : p = extractTextFromElement el.nodes := by simpa using h'
            exact Or.inr ⟨he ▸ hguard.1, he ▸ hguard.2.1, el, List.mem_cons_self ..,
              Bool.of_not_eq_true hq, he ▸ hguard.2.2.2, he⟩
        · exact Or.inr ⟨h1, h2, el', List.mem_cons_of_mem _ hel', hq', hu, he⟩
      · rcases ih _ _ hp with h | ⟨h1, h2, el', hel', hq', hu, he⟩
        · exact Or.inl h
        · exact Or.inr ⟨h1, h2, el', List.mem_cons_of_mem _ hel', hq', hu, he⟩

theorem fallbackLoop_nodup (minLen : Nat) (els : List ContentEl) (ps seen : List String)
    (hsub : ∀ p ∈ ps, p ∈ seen) (hnd : ps.Nodup) :
    (fallbackLoop minLen els ps seen).1.Nodup := by
  induction els generalizing ps seen with
  | nil => exact hnd
  | cons el rest ih =>
    simp only [fallbackLoop]
    split
    · exact ih ps seen hsub hnd
    · split
      · rename_i hguard
        refine ih _ _ ?_ ?_
        · intro p hp
          rcases List.mem_append.mp hp with h | h
          · exact List.mem_append.mpr (Or.inl (hsub p h))
          · exact List.mem_append.mpr (Or.inr h)
        · refine List.Nodup.append hnd (List.nodup_singleton _) ?_
          intro a ha hb
          have : a = extractTextFromElement el.nodes := by simpa using hb
          exact hguard.2.2.1 (this ▸ hsub a ha)
      · exact ih ps seen hsub hnd

/-! ## Characterization of the paragraph output of each strategy -/

theorem finishParas_paragraphs (c : Content) (ps : List String) :
    (finishParas c ps).paragraphs = ps := by
  rw [finishParas]
  cases hh : ps.head? with
  | none => simp [hh]
  | some p0 =>
    simp only [hh]
    split <;> rfl

theorem extractThreadContent_paragraphs (d : Doc) (c : Content) :
    (d.primaryColumn = none ∧ (extractThreadContent d c).paragraphs = c.paragraphs) ∨
    (∃ pc, d.primaryColumn = some pc ∧
      (extractThreadContent d c).paragraphs = (threadLoop pc.tweetTexts [] []).1) := by
  cases h : d.primaryColumn with
  | none => exact Or.inl ⟨rfl, by simp [extractThreadContent, h]⟩
  | some pc =>
    refine Or.inr ⟨pc, rfl, ?_⟩
    simp [extractThreadContent, h, finishParas_paragraphs]

theorem extractStatusContent_paragraphs (d : Doc) (c : Content) :
    ((extractStatusContent d c).paragraphs =
        (extractThreadContent d { c with author := extractAuthor d }).paragraphs) ∨
    (∃ rv, d.readView = some rv ∧
      ((extractStatusContent d c).paragraphs = statusLoop rv.contentElements [] ∨
       (extractStatusContent d c).paragraphs = lineLoop (splitNl rv.innerText) [])) := by
  cases h : d.readView with
  | none => exact Or.inl (by simp [extractStatusContent, h])
  | some rv =>
    by_cases h1 : (statusLoop rv.contentElements []).isEmpty = true
    · by_cases h2 : (lineLoop (splitNl rv.innerText) []).isEmpty = true
      · exact Or.inl (by simp [extractStatusContent, h, h1, h2])
      · exact Or.inr ⟨rv, rfl,
          Or.inr (by simp [extractStatusContent, h, h1, h2, finishParas_paragraphs])⟩
    · exact Or.inr ⟨rv, rfl,
        Or.inl (by simp [extractStatusContent, h, h1, finishParas_paragraphs])⟩

theorem extractArticleContent_paragraphs (d : Doc) (c : Content) :
    (d.articleEl = none ∧ extractArticleContent d c = extractStatusContent d c) ∨
    (∃ ac, d.articleEl = some ac ∧
      (extractArticleContent d c).paragraphs = articleLoop ac.paragraphEls [] []) := by
  cases h : d.articleEl with
  | none => exact Or.inl ⟨rfl, by simp [extractArticleContent, h]⟩
  | some ac =>
    refine Or.inr ⟨ac, rfl, ?_⟩
    simp only [extractArticleContent, h]

/-- Every paragraph produced by `extractContent` is non-empty. -/
theorem extractContent_paragraphs_ne_empty (d : Doc) (p : String)
    (hp : p ∈ (extractContent d).paragraphs) : p ≠ "" := by
  have thread : ∀ (c : Content), c.paragraphs = [] →
      p ∈ (extractThreadContent d c).paragraphs → p ≠ "" := by
    intro c hc hp
    rcases extractThreadContent_paragraphs d c with ⟨_, he⟩ | ⟨pc, _, he⟩
    · rw [he, hc] at hp; cases hp
    · rw [he] at hp
      rcases threadLoop_mem _ _ _ _ hp with h | ⟨h1, _⟩
      · cases h
      · exact h1
  have status : ∀ (c : Content), c.paragraphs = [] →
      p ∈ (extractStatusContent d c).paragraphs → p ≠ "" := by
    intro c hc hp
    rcases extractStatusContent_paragraphs d c with he | ⟨rv, _, he | he⟩
    · exact thread { c with author := extractAuthor d } hc (he ▸ hp)
    · rw [he] at hp
      rcases statusLoop_mem _ _ _ hp with h | ⟨h1, _⟩
      · cases h
      · exact h1
    · rw [he] at hp
      rcases lineLoop_mem _ _ _ hp with h | ⟨h1, _⟩
      · cases h
      · exact h1
  rw [extractContent] at hp
  split at hp
  · rcases extractArticleContent_paragraphs d emptyContent with ⟨_, he⟩ | ⟨ac, _, he⟩
    · exact status emptyContent rfl (he ▸ hp)
    · rw [he] at hp
      rcases articleLoop_mem _ _ _ _ hp with h | ⟨h1, _⟩
      · cases h
      · exact h1
  · exact status emptyContent rfl hp

/-- Every paragraph produced by the aggressive fallback is longer than 20
characters, and the fallback output is duplicate-free. -/
theorem extractFallbackContent_paragraphs (d : Doc) :
    (∀ p ∈ (extractFallbackContent d).paragraphs, 20 < p.length) ∧
    (extractFallbackContent d).paragraphs.Nodup := by
  rw [extractFallbackContent]
  cases h : fallbackRoot d with
  | none =>
    constructor
    · intro p hp
      simp [emptyContent] at hp
    · simp [emptyContent]
  | some pc =>
    by_cases h1 : (fallbackLoop 20 pc.tweetTexts [] []).1.isEmpty = true
    · constructor
      · intro p hp
        simp only [h1, if_true] at hp
        rcases fallbackLoop_mem _ _ _ _ _ hp with hmem | ⟨_, h2, _⟩
        · rw [List.isEmpty_iff] at h1
          rw [h1] at hmem; cases hmem
        · omega
      · simp only [h1, if_true]
        rw [List.isEmpty_iff] at h1
        refine fallbackLoop_nodup _ _ _ _ ?_ ?_
        · rw [h1]; intro p hp; cases hp
        · rw [h1]; exact List.nodup_nil
    · constructor
      · intro p hp
        simp only [h1, if_false] at hp
        rcases fallbackLoop_mem _ _ _ _ _ hp with hmem | ⟨_, h2, _⟩
        · cases hmem
        · exact h2
      · simp only [h1, if_false]
        exact fallbackLoop_nodup _ _ _ _ (by intro p hp; cases hp) List.nodup_nil

/-! ## Final-assembly lemmas -/

theorem joinSep_blank_ne_empty (l : List String) (hne : l ≠ [])
    (hall : ∀ p ∈ l, p ≠ "") : joinSep "\n\n" l ≠ "" := by
  cases l with
  | nil => exact absurd rfl hne
  | cons a rest =>
    cases rest with
    | nil => simpa [joinSep] using hall a (by simp)
    | cons b t =>
      intro hcon
      have hlen := congrArg String.length hcon
      rw [joinSep] at hlen
      have h2 : ("\n\n" : String).length = 2 := rfl
      have h0 : ("" : String).length = 0 := rfl
      rw [String.length_append, String.length_append, h2, h0] at hlen
      omega

theorem articleBy_ne_empty (x : String) : ("Article by " ++ x) ≠ "" := by
  intro hcon
  have hlen := congrArg String.length hcon
  have h11 : ("Article by " : String).length = 11 := rfl
  have h0 : ("" : String).length = 0 := rfl
  rw [String.length_append, h11, h0] at hlen
  omega

/-- `getReadableText` is `none` exactly when both the layered extraction and
the aggressive fallback produce no paragraphs. -/
theorem getReadableText_eq_none_iff (d : Doc) :
    getReadableText d = none ↔
      ((extractContent d).paragraphs = [] ∧ (extractFallbackContent d).paragraphs = []) := by
  rw [getReadableText]
  by_cases h1 : (extractContent d).paragraphs.isEmpty = true
  · by_cases h2 : (extractFallbackContent d).paragraphs.isEmpty = true
    · simp [h1, h2, List.isEmpty_iff.mp h1, List.isEmpty_iff.mp h2]
    · have h2' : (extractFallbackContent d).paragraphs ≠ [] := by
        simpa [List.isEmpty_iff] using h2
      simp [h1, h2, h2']
  · have h1' : (extractContent d).paragraphs ≠ [] := by
      simpa [List.isEmpty_iff] using h1
    simp [h1, h1']

/-- When `getReadableText` returns text, the text is the blank-line join of
the paragraphs of whichever extraction produced them, with an
"Article by" line exactly when that extraction's author is non-empty. -/
theorem getReadableText_eq_some (d : Doc) (s : String) (h : getReadableText d = some s) :
    ((extractContent d).paragraphs ≠ [] ∧
      s = joinSep "\n\n"
        ((if (extractContent d).author ≠ ""
            then ["Article by " ++ (extractContent d).author] else [])
          ++ (extractContent d).paragraphs)) ∨
    ((extractContent d).paragraphs = [] ∧ (extractFallbackContent d).paragraphs ≠ [] ∧
      s = joinSep "\n\n"
        ((if (extractFallbackContent d).author ≠ ""
            then ["Article by " ++ (extractFallbackContent d).author] else [])
          ++ (extractFallbackContent d).paragraphs)) := by
  rw [getReadableText] at h
  by_cases h1 : (extractContent d).paragraphs.isEmpty = true
  · by_cases h2 : (extractFallbackContent d).paragraphs.isEmpty = true
    · simp [h1, h2] at h
    · have h2' : (extractFallbackContent d).paragraphs ≠ [] := by
        simpa [List.isEmpty_iff] using h2
      refine Or.inr ⟨List.isEmpty_iff.mp h1, h2', ?_⟩
      simp only [h1, h2] at h
      simp only [if_true, if_false, Bool.false_eq_true, Option.some.injEq] at h
      exact h.symm
  · have h1' : (extractContent d).paragraphs ≠ [] := by
      simpa [List.isEmpty_iff] using h1
    refine Or.inl ⟨h1', ?_⟩
    simp only [h1] at h
    simp only [if_true, if_false, Bool.false_eq_true, Option.some.injEq] at h
    exact h.symm

/-- With no structured read-view container, every extraction path
de-duplicates, so `extractContent`'s paragraphs are duplicate-free. -/
theorem extractContent_nodup_of_no_readView (d : Doc) (h : d.readView = none) :
    (extractContent d).paragraphs.Nodup := by
  have thread : ∀ (c : Content), c.paragraphs = [] →
      (extractThreadContent d c).paragraphs.Nodup := by
    intro c hc
    rcases extractThreadContent_paragraphs d c with ⟨_, he⟩ | ⟨pc, _, he⟩
    · rw [he, hc]; exact List.nodup_nil
    · rw [he]
      exact threadLoop_nodup _ _ _ (by intro p hp; cases hp) List.nodup_nil
  have status : ∀ (c : Content), c.paragraphs = [] →
      (extractStatusContent d c).paragraphs.Nodup := by
    intro c hc
    rcases extractStatusContent_paragraphs d c with he | ⟨rv, hrv, _⟩
    · rw [he]; exact thread { c with author := extractAuthor d } hc
    · rw [h] at hrv; cases hrv
  rw [extractContent]
  split
  · rcases extractArticleContent_paragraphs d emptyContent with ⟨_, he⟩ | ⟨ac, _, he⟩
    · rw [he]; exact status emptyContent rfl
    · rw [he]
      exact articleLoop_nodup _ _ _ (by intro p hp; cases hp) List.nodup_nil
  · exact status emptyContent rfl

/-! ## The claims -/

/-- C3: when no earlier check has fired (non-article path, status path,
primary column present, no article container, no "Article"/"Notes" label
span, no show-more link, a main tweet whose text is at most 280 characters),
`isArticlePage` returns `true` if and only if at least 2 non-quoted items of
the primary region have the path-derived author and their summed text
length is at least 400. -/
theorem C3_thread_boundary (d : Doc) (pc : Region) (mt : TweetEl) (h : String)
    (hart : (strHasSub d.pathname "/article/" || strHasSub d.pathname "/i/articles/") = false)
    (hstatus : isStatusPath d.pathname = true)
    (hpc : d.primaryColumn = some pc)
    (hcont : d.hasArticleContainer = false)
    (hspans : pc.spans.any (fun s => jsTrim s = "Article" || jsTrim s = "Notes") = false)
    (hshow : d.showMoreLink = false)
    (hmt : getMainTweetElement d = some mt)
    (hshort : (mt.tweetText.getD "").length ≤ MIN_SINGLE_TWEET_LENGTH)
    (hhandle : getAuthorHandle d.pathname = some h) :
    isArticlePage d = true ↔
      ((threadStats pc.tweets h).1 ≥ MIN_THREAD_TWEETS ∧
       (threadStats pc.tweets h).2 ≥ MIN_THREAD_CONTENT_LENGTH) := by
  have hnot : ¬ (mt.tweetText.getD "").length > MIN_SINGLE_TWEET_LENGTH :=
    Nat.not_lt.mpr hshort
  by_cases hc : ((threadStats pc.tweets h).1 ≥ MIN_THREAD_TWEETS ∧
      (threadStats pc.tweets h).2 ≥ MIN_THREAD_CONTENT_LENGTH)
  · simp [isArticlePage, hart, hstatus, hpc, hcont, hspans, hshow, hmt, hhandle, hnot, hc]
  · simp [isArticlePage, hart, hstatus, hpc, hcont, hspans, hshow, hmt, hhandle, hnot, hc]

set_option maxRecDepth 40000 in
/-- C3 witness: exactly 2 same-author items totalling exactly 400 characters
on a status page with all earlier checks silent yield `true`. -/
theorem C3_thread_boundary_witness : isArticlePage c3doc = true := by
  have := C3_thread_boundary c3doc c3pc c3tweet1 "carol"
    (by decide) (by decide) rfl rfl (by decide) rfl rfl (by decide) (by decide)
  exact this.mpr (by decide)

/-- C4: the single-item length threshold is a strict greater-than — with all
earlier checks silent and no qualifying thread, a main item of exactly 280
characters leaves `isArticlePage` at `false`, while 281 characters makes it
`true`. -/
theorem C4_single_item_threshold (d : Doc) (pc : Region) (mt : TweetEl) (h : String)
    (hart : (strHasSub d.pathname "/article/" || strHasSub d.pathname "/i/articles/") = false)
    (hstatus : isStatusPath d.pathname = true)
    (hpc : d.primaryColumn = some pc)
    (hcont : d.hasArticleContainer = false)
    (hspans : pc.spans.any (fun s => jsTrim s = "Article" || jsTrim s = "Notes") = false)
    (hshow : d.showMoreLink = false)
    (hmt : getMainTweetElement d = some mt)
    (hhandle : getAuthorHandle d.pathname = some h)
    (hnothread : ¬ ((threadStats pc.tweets h).1 ≥ MIN_THREAD_TWEETS ∧
        (threadStats pc.tweets h).2 ≥ MIN_THREAD_CONTENT_LENGTH)) :
    ((mt.tweetText.getD "").length = 281 → isArticlePage d = true) ∧
    ((mt.tweetText.getD "").length = 280 → isArticlePage d = false) := by
  constructor
  · intro hlen
    have hgt : (mt.tweetText.getD "").length > MIN_SINGLE_TWEET_LENGTH := by
      rw [hlen]; decide
    simp [isArticlePage, hart, hstatus, hpc, hcont, hspans, hshow, hmt, hgt]
  · intro hlen
    have hnot : ¬ (mt.tweetText.getD "").length > MIN_SINGLE_TWEET_LENGTH := by
      rw [hlen]; decide
    simp [isArticlePage, hart, hstatus, hpc, hcont, hspans, hshow, hmt, hhandle,
      hnot, hnothread]

set_option maxRecDepth 40000 in
/-- C4 witness: a 281-character main item yields `true`; the same page with
a 280-character main item yields `false`. -/
theorem C4_single_item_threshold_witness :
    isArticlePage c4doc281 = true ∧ isArticlePage c4doc280 = false := by
  constructor
  · exact (C4_single_item_threshold c4doc281 c4pc c4tweet281 "dave"
      (by decide) (by decide) rfl rfl (by decide) rfl rfl (by decide)
      (by decide)).1 (by decide)
  · exact (C4_single_item_threshold c4doc280 c4pc c4tweet280 "dave"
      (by decide) (by decide) rfl rfl (by decide) rfl rfl (by decide)
      (by decide)).2 (by decide)

/-- C5: path-only decisions — for every document state, a pathname matching
the explicit article pattern makes `isArticlePage` return `true` (no DOM
field matters, even a missing primary column), and a pathname matching
neither the article pattern nor the status pattern makes it return `false`. -/
theorem C5_path_only_decisions (d : Doc) :
    ((strHasSub d.pathname "/article/" || strHasSub d.pathname "/i/articles/") = true →
      isArticlePage d = true) ∧
    ((strHasSub d.pathname "/article/" || strHasSub d.pathname "/i/articles/") = false →
      isStatusPath d.pathname = false → isArticlePage d = false) := by
  constructor
  · intro h
    simp [isArticlePage, h]
  · intro h hs
    simp [isArticlePage, h, hs]

/-- C5 witness: an article path with an empty document yields `true`; a
feed path yields `false`. -/
theorem C5_path_only_decisions_witness :
    isArticlePage c5artDoc = true ∧ isArticlePage c5otherDoc = false :=
  ⟨(C5_path_only_decisions c5artDoc).1 (by decide),
   (C5_path_only_decisions c5otherDoc).2 (by decide) (by decide)⟩

set_option maxRecDepth 100000 in
/-- C1 counterexample: in the end-to-end scenario (three non-quoted items
A(39)/B(500)/A(380) on a single-item path), `getReadableText` does NOT
return only the two author-A paragraphs joined with a blank line, contrary
to the claim — the thread extractor does not filter by author. -/
theorem C1_end_to_end_counterexample :
    getReadableText c1doc ≠ some (c1textA1 ++ "\n\n" ++ c1textA2) := by decide

set_option maxRecDepth 100000 in
/-- C1 amended: in the end-to-end scenario, `isArticlePage` returns `true`
via thread detection (author-A count 2, total 419 ≥ 400), and
`getReadableText` returns all three non-quoted paragraphs joined with blank
lines — including author B's paragraph, which is not excluded. -/
theorem C1_end_to_end_amended :
    isArticlePage c1doc = true ∧
    getAuthorHandle c1doc.pathname = some "alice" ∧
    threadStats c1pc.tweets "alice" = (2, 419) ∧
    getReadableText c1doc =
      some (c1textA1 ++ "\n\n" ++ c1textB ++ "\n\n" ++ c1textA2) := by
  refine ⟨by decide, by decide, by decide, by decide⟩

/-- C2 counterexample: the structured read-view strategy does not
de-duplicate (two identical elements produce two identical paragraphs), and
the thread strategy keeps a string recognized as interface chrome. -/
theorem C2_paragraphs_invariant_counterexample :
    (extractContent c2dupDoc).paragraphs = [c2dupText, c2dupText] ∧
    ¬ (extractContent c2dupDoc).paragraphs.Nodup ∧
    (extractContent c2chromeDoc).paragraphs = ["Like"] ∧
    isButtonText "Like" = true ∧ isUIElement false "Like" = true := by
  refine ⟨by decide, by decide, by decide, by decide, by decide⟩

/-- C2 amended: every extraction call yields only non-empty paragraphs; the
aggressive fallback de-duplicates, and so does the layered extraction
whenever the structured read-view container is absent (the structured
strategy and its line-split fallback are the paths without de-duplication,
and chrome filtering differs per strategy). -/
theorem C2_paragraphs_invariant_amended (d : Doc) :
    (∀ p ∈ (extractContent d).paragraphs, p ≠ "") ∧
    (∀ p ∈ (extractFallbackContent d).paragraphs, p ≠ "") ∧
    (extractFallbackContent d).paragraphs.Nodup ∧
    (d.readView = none → (extractContent d).paragraphs.Nodup) := by
  refine ⟨fun p hp => extractContent_paragraphs_ne_empty d p hp, ?_,
    (extractFallbackContent_paragraphs d).2,
    extractContent_nodup_of_no_readView d⟩
  intro p hp hcon
  have hlen := (extractFallbackContent_paragraphs d).1 p hp
  rw [hcon] at hlen
  exact absurd hlen (by decide)

/-- C2 amended witness: a concrete read-view-free page has duplicate-free
paragraphs. -/
theorem C2_paragraphs_invariant_amended_witness :
    (extractContent c2wDoc).paragraphs.Nodup :=
  (C2_paragraphs_invariant_amended c2wDoc).2.2.2 rfl

/-- C6 counterexample: the thread/status strategy applies neither the
20-character minimum nor the UI-noise pattern filter — a lone 4-character
chrome string "Like" is collected as a paragraph. -/
theorem C6_thread_filters_counterexample :
    (extractThreadContent c6doc emptyContent).paragraphs = ["Like"] ∧
    (extractContent c6doc).paragraphs = ["Like"] ∧
    ("Like" : String).length < 20 ∧
    isUIElement false "Like" = true ∧
    isButtonText "Like" = true := by
  refine ⟨by decide, by decide, by decide, by decide, by decide⟩

/-- C6 amended: every text collected by the thread strategy comes from a
non-quoted tweet-text element of the primary region, is non-empty after
trimming, and is not a duplicate of one already collected; the 20-character
minimum (strictly greater than 20) together with the UI-noise/ancestry
filter is applied only by the aggressive fallback extractor. -/
theorem C6_thread_filters_amended (d : Doc) (c : Content) (pc : Region)
    (hpc : d.primaryColumn = some pc) :
    ((extractThreadContent d c).paragraphs.Nodup ∧
      ∀ p ∈ (extractThreadContent d c).paragraphs,
        p ≠ "" ∧ ∃ el ∈ pc.tweetTexts, el.insideQuote = false ∧ p = jsTrim el.innerText) ∧
    (∀ p ∈ (extractFallbackContent d).paragraphs, 20 < p.length) := by
  have hpar : (extractThreadContent d c).paragraphs = (threadLoop pc.tweetTexts [] []).1 := by
    rcases extractThreadContent_paragraphs d c with ⟨hn, _⟩ | ⟨pc', hpc', he⟩
    · rw [hpc] at hn; cases hn
    · rw [hpc] at hpc'
      cases hpc'
      exact he
  refine ⟨⟨?_, ?_⟩, (extractFallbackContent_paragraphs d).1⟩
  · rw [hpar]
    exact threadLoop_nodup _ _ _ (by intro p hp; cases hp) List.nodup_nil
  · intro p hp
    rw [hpar] at hp
    rcases threadLoop_mem _ _ _ _ hp with hmem | ⟨h1, el, hel, hq, he⟩
    · cases hmem
    · exact ⟨h1, el, hel, hq, he⟩

/-- C6 amended witness: a concrete page's thread paragraphs are
duplicate-free. -/
theorem C6_thread_filters_amended_witness :
    (extractThreadContent c6wDoc emptyContent).paragraphs.Nodup :=
  ((C6_thread_filters_amended c6wDoc emptyContent c6wpc rfl).1).1

/-- C7 counterexample: a 50-character candidate made of digits is a bare
engagement counter for `isButtonText`, which has no length gate, so the
structured strategy excludes it — a candidate of 50 or more characters is
NOT retained regardless of pattern content. -/
theorem C7_noise_filter_counterexample :
    c7digits.length = 50 ∧
    isButtonText c7digits = true ∧
    (extractContent c7doc).paragraphs = [] := by
  refine ⟨by decide, by decide, by decide⟩

/-- C7 amended: in `isUIElement` the length gate precedes the pattern gate,
so candidates of at least 50 characters bypass the pattern set (and, with
no excluded ancestry, are retained); "Like", "1.2K" and "Follow" are
excluded by both filters, and the 45-character candidate containing "Like"
is retained; `isButtonText`, however, applies its anchored patterns with no
length gate, so a 50-character bare counter is still excluded where
`isButtonText` is used. -/
theorem C7_noise_filter_amended (t : String) (hlen : 50 ≤ t.length) :
    isUIElement false t = false ∧
    (isUIElement false "Like" = true ∧ isUIElement false "1.2K" = true ∧
     isUIElement false "Follow" = true ∧ isButtonText "Like" = true ∧
     isButtonText "1.2K" = true ∧ isButtonText "Follow" = true) ∧
    (c7text45.length = 45 ∧ strHasSub c7text45 "Like" = true ∧
     isUIElement false c7text45 = false ∧ isButtonText c7digits = true ∧
     c7digits.length = 50) := by
  refine ⟨?_, by decide, by decide⟩
  rw [isUIElement]
  have h1 : ¬ t.length < 20 := by omega
  have h2 : ¬ t.length < 50 := by omega
  simp [h1, h2]

/-- C7 amended witness: a concrete 50-character text passes `isUIElement`. -/
theorem C7_noise_filter_amended_witness :
    isUIElement false c7fifty = false :=
  (C7_noise_filter_amended c7fifty (by decide)).1

/-- C8: `getReadableText` returns `null` exactly when every extraction
strategy, including the aggressive fallback, yields zero paragraphs;
otherwise it returns the extracted paragraphs joined with a blank-line
separator, preceded by an "Article by" line if and only if a non-empty
author was derived. -/
theorem C8_final_assembly (d : Doc) :
    (getReadableText d = none ↔
      ((extractContent d).paragraphs = [] ∧ (extractFallbackContent d).paragraphs = [])) ∧
    (∀ s, getReadableText d = some s →
      ((extractContent d).paragraphs ≠ [] ∧
        s = joinSep "\n\n"
          ((if (extractContent d).author ≠ ""
              then ["Article by " ++ (extractContent d).author] else [])
            ++ (extractContent d).paragraphs)) ∨
      ((extractContent d).paragraphs = [] ∧ (extractFallbackContent d).paragraphs ≠ [] ∧
        s = joinSep "\n\n"
          ((if (extractFallbackContent d).author ≠ ""
              then ["Article by " ++ (extractFallbackContent d).author] else [])
            ++ (extractFallbackContent d).paragraphs))) :=
  ⟨getReadableText_eq_none_iff d, fun s h => getReadableText_eq_some d s h⟩

/-- C8 witness: the empty document yields `none` (no content, do not offer a
reader). -/
theorem C8_final_assembly_witness : getReadableText c8doc = none :=
  (C8_final_assembly c8doc).1.mpr ⟨by decide, by decide⟩

/-- C9: determinism/idempotence — the engine is a pure function of the
document snapshot (the source module's only module-level bindings are
constant thresholds and a constant debug flag; all de-duplication sets are
per-call locals), so two successive calls of `isArticlePage` and of
`getReadableText` on an unchanged snapshot return identical results. -/
theorem C9_determinism_idempotence (d : Doc) :
    (classifyTwice d).1 = (classifyTwice d).2 ∧
    (extractTwice d).1 = (extractTwice d).2 :=
  ⟨rfl, rfl⟩

/-- C10: `getReadableText` never returns the empty string — whenever it
returns a string, that string is non-empty and some strategy contributed at
least one non-empty paragraph. -/
theorem C10_never_empty_result (d : Doc) (s : String)
    (h : getReadableText d = some s) :
    s ≠ "" ∧ ∃ p, (p ∈ (extractContent d).paragraphs ∨
      p ∈ (extractFallbackContent d).paragraphs) ∧ p ≠ "" := by
  have fbne : ∀ p ∈ (extractFallbackContent d).paragraphs, p ≠ "" := by
    intro p hp hcon
    have hlen := (extractFallbackContent_paragraphs d).1 p hp
    rw [hcon] at hlen
    exact absurd hlen (by decide)
  rcases getReadableText_eq_some d s h with ⟨hne, hs⟩ | ⟨_, hne, hs⟩
  · constructor
    · rw [hs]
      refine joinSep_blank_ne_empty _ ?_ ?_
      · intro hcon
        exact hne (List.append_eq_nil.mp hcon).2
      · intro p hp
        rcases List.mem_append.mp hp with hp | hp
        · by_cases hc : (extractContent d).author ≠ ""
          · rw [if_pos hc] at hp
            have hpe : p = "Article by " ++ (extractContent d).author := by simpa using hp
            rw [hpe]
            exact articleBy_ne_empty _
          · rw [if_neg hc] at hp
            cases hp
        · exact extractContent_paragraphs_ne_empty d p hp
    · obtain ⟨p, hp⟩ := List.exists_mem_of_ne_nil _ hne
      exact ⟨p, Or.inl hp, extractContent_paragraphs_ne_empty d p hp⟩
  · constructor
    · rw [hs]
      refine joinSep_blank_ne_empty _ ?_ ?_
      · intro hcon
        exact hne (List.append_eq_nil.mp hcon).2
      · intro p hp
        rcases List.mem_append.mp hp with hp | hp
        · by_cases hc : (extractFallbackContent d).author ≠ ""
          · rw [if_pos hc] at hp
            have hpe : p = "Article by " ++ (extractFallbackContent d).author := by
              simpa using hp
            rw [hpe]
            exact articleBy_ne_empty _
          · rw [if_neg hc] at hp
            cases hp
        · exact fbne p hp
    · obtain ⟨p, hp⟩ := List.exists_mem_of_ne_nil _ hne
      exact ⟨p, Or.inr hp, fbne p hp⟩

/-- C10 witness: a concrete page's readable text is a non-empty string. -/
theorem C10_never_empty_result_witness :
    getReadableText c10doc = some c10text ∧ c10text ≠ "" :=
  ⟨by decide, (C10_never_empty_result c10doc c10text (by decide)).1⟩

end ReadAloud
